import Mathlib

/-!
Shallow embedding of the bernard significance extension:
the idle-detection service (`extensions/significance/src/idle-service.ts`),
the QMD context pipeline (`extensions/significance/src/qmd-context.ts`),
and the plugin module hosting the scheduler tick, the config schema, the
task-ledger writer and the task/thread extractors.

Conventions: JS millisecond timestamps and durations are `Int`; the JS
`string | number` union for sleep bounds is `TimeBound`; `Number(...)`
applied to a string is modelled on integer numerals, with `none` standing
for `NaN`; comparisons against a possibly-`NaN` value follow JS semantics
(every comparison with `NaN` is false). Fallible I/O steps are passed in
as explicit `Except`/`Option` values so every function is total.
-/

namespace Bernard

/-- The JS `string | number` union used for the `sleepStart` / `sleepEnd`
configuration values. -/
inductive TimeBound where
  | num (n : Int)
  | str (s : String)
deriving DecidableEq, Repr

/-- Decimal-digit accumulator over a character list: `some` of the value
when every character is a digit, `none` otherwise. -/
def digitsToNat (acc : Nat) : List Char → Option Nat
  | [] => some acc
  | c :: rest => if c.isDigit then digitsToNat (acc * 10 + (c.toNat - 48)) rest else none

/-- Models JS `Number(s)` restricted to integer numeral strings (an
optional leading minus followed by decimal digits); `none` stands for
`NaN` (non-numeric input). -/
def jsToNumber (s : String) : Option Int :=
  match s.data with
  | [] => none
  | '-' :: rest => (digitsToNat 0 rest).map (fun n => -(n : Int))
  | l => (digitsToNat 0 l).map (fun n => (n : Int))

/-- Splitter for `s.split(":")`, accumulating the current segment in
reverse. -/
def splitOnColonAux (cur : List Char) : List Char → List String
  | [] => [String.mk cur.reverse]
  | c :: rest =>
    if c = ':' then String.mk cur.reverse :: splitOnColonAux [] rest
    else splitOnColonAux (c :: cur) rest

/-- Models JS `s.split(":")`. -/
def jsSplitOnColon (s : String) : List String :=
  splitOnColonAux [] s.data

/-- JS `<` where either side may be `NaN` (`none`): any comparison with
`NaN` is false. -/
def jsLt (a b : Option Int) : Bool :=
  match a, b with
  | some x, some y => decide (x < y)
  | _, _ => false

/-- JS `<=` with `NaN` semantics. -/
def jsLe (a b : Option Int) : Bool :=
  match a, b with
  | some x, some y => decide (x ≤ y)
  | _, _ => false

/-- JS `>` with `NaN` semantics. -/
def jsGt (a b : Option Int) : Bool :=
  match a, b with
  | some x, some y => decide (x > y)
  | _, _ => false

/-- JS `>=` with `NaN` semantics. -/
def jsGe (a b : Option Int) : Bool :=
  match a, b with
  | some x, some y => decide (x ≥ y)
  | _, _ => false

/-- The `IdleState` record of `idle-service.ts`. -/
structure IdleState where
  lastInteractionMs : Int
  lastCheckInMs : Int
  relationshipStartMs : Int
  checkInCount : Int
deriving DecidableEq, Repr

/-- The JSON object read back from `significance-idle.json`: each field may
be absent (`undefined`/`null`), in which case `loadIdleState` substitutes a
default via `??`. -/
structure ParsedIdle where
  lastInteractionMs : Option Int
  lastCheckInMs : Option Int
  relationshipStartMs : Option Int
  checkInCount : Option Int
deriving DecidableEq, Repr

namespace IdleService

/-- `DEFAULT_STATE` from `idle-service.ts`. It is a module-level constant:
both `Date.now()` calls in its initializer run once at module load, so the
two timestamp defaults are the module-initialization instant
(`moduleInitMs`), not the instant of any later `loadIdleState` call, and
`lastCheckInMs` defaults to `0`. -/
def DEFAULT_STATE (moduleInitMs : Int) : IdleState :=
  { lastInteractionMs := moduleInitMs
    lastCheckInMs := 0
    relationshipStartMs := moduleInitMs
    checkInCount := 0 }

/-- `loadIdleState` from `idle-service.ts`. `file` is the outcome of
reading and JSON-parsing the state file: `.error ()` when the file is
missing, unreadable or unparsable (the `catch` branch), `.ok parsed`
otherwise. `nowMs` is `Date.now()` at the time of the call, used by the
`?? Date.now()` defaults on the parsed-field path. The function is total:
it never throws. -/
def loadIdleState (moduleInitMs : Int) (file : Except Unit ParsedIdle) (nowMs : Int) : IdleState :=
  match file with
  | .ok parsed =>
    { lastInteractionMs := parsed.lastInteractionMs.getD nowMs
      lastCheckInMs := parsed.lastCheckInMs.getD 0
      relationshipStartMs := parsed.relationshipStartMs.getD nowMs
      checkInCount := parsed.checkInCount.getD 0 }
  | .error _ => DEFAULT_STATE moduleInitMs

/-- `saveIdleState` from `idle-service.ts`, modelled at the JSON level: it
serializes all four fields of the state, so every field of the written
record is present. -/
def saveIdleState (state : IdleState) : ParsedIdle :=
  { lastInteractionMs := some state.lastInteractionMs
    lastCheckInMs := some state.lastCheckInMs
    relationshipStartMs := some state.relationshipStartMs
    checkInCount := some state.checkInCount }

/-- `getIdleMs` from `idle-service.ts` (`Date.now() - state.lastInteractionMs`). -/
def getIdleMs (nowMs : Int) (state : IdleState) : Int :=
  nowMs - state.lastInteractionMs

/-- `isInLearningMode` from `idle-service.ts`:
`Date.now() - relationshipStartMs < 14 * 24 * 60 * 60 * 1000`. -/
def isInLearningMode (nowMs : Int) (state : IdleState) : Bool :=
  decide (nowMs - state.relationshipStartMs < 14 * 24 * 60 * 60 * 1000)

/-- `parseTimeToMinutes` from `idle-service.ts`: a number is taken as hours
(`* 60`); a string is split on `":"`, a two-part split is `h * 60 + m`,
otherwise the whole string is read as hours. `none` is a `NaN` result from
a non-numeric component. -/
def parseTimeToMinutes : TimeBound → Option Int
  | .num n => some (n * 60)
  | .str s =>
    match jsSplitOnColon s with
    | [h, m] =>
      match jsToNumber h, jsToNumber m with
      | some hv, some mv => some (hv * 60 + mv)
      | _, _ => none
    | _ => (jsToNumber s).map (fun n => n * 60)

/-- The comparison core of `isInSleepHours` from `idle-service.ts`, over the
already-normalized minute bounds (the source computes them inline via
`parseTimeToMinutes`): overnight wrap when `start > end`, same-day window
otherwise. -/
def isInSleepHoursMinutes (startMinutes endMinutes : Option Int) (currentMinutes : Int) : Bool :=
  if jsGt startMinutes endMinutes then
    jsGe (some currentMinutes) startMinutes || jsLt (some currentMinutes) endMinutes
  else
    jsGe (some currentMinutes) startMinutes && jsLt (some currentMinutes) endMinutes

/-- `isInSleepHours` from `idle-service.ts`. `currentMinutes` is
`now.getHours() * 60 + now.getMinutes()`. -/
def isInSleepHours (sleepStart sleepEnd : TimeBound) (currentMinutes : Int) : Bool :=
  isInSleepHoursMinutes (parseTimeToMinutes sleepStart) (parseTimeToMinutes sleepEnd) currentMinutes

/-- `shouldSendCheckIn` from `idle-service.ts`. The optional
`minTimeBetweenCheckInsMs` parameter defaults to `3600000` (one hour) when
the caller omits it. -/
def shouldSendCheckIn (nowMs currentMinutes : Int) (state : IdleState)
    (idleThresholdMs : Int) (sleepStart sleepEnd : TimeBound)
    (minTimeBetweenCheckInsMsOpt : Option Int) : Bool :=
  let minTimeBetweenCheckInsMs := minTimeBetweenCheckInsMsOpt.getD 3600000
  if isInSleepHours sleepStart sleepEnd currentMinutes then false
  else if nowMs - state.lastCheckInMs < minTimeBetweenCheckInsMs then false
  else decide (getIdleMs nowMs state ≥ idleThresholdMs)

/-- The `TimeOfDay` type of `idle-service.ts` (`night` instead of the
plugin module's `sleep`). -/
inductive IdleTimeOfDay where
  | morning | afternoon | evening | night
deriving DecidableEq, Repr

/-- `getTimeOfDay` from `idle-service.ts`: `night` during sleep hours,
otherwise fixed hour buckets 5-12 / 12-18 / else. `hour` is
`new Date().getHours()`. -/
def getTimeOfDay (sleepStart sleepEnd : TimeBound) (hour currentMinutes : Int) : IdleTimeOfDay :=
  if isInSleepHours sleepStart sleepEnd currentMinutes then .night
  else if 5 ≤ hour ∧ hour < 12 then .morning
  else if 12 ≤ hour ∧ hour < 18 then .afternoon
  else .evening

end IdleService

/-- `QmdContextResult` from `qmd-context.ts`. -/
structure QmdContextResult where
  recentTasks : List String
  openThreads : List String
  lastTopic : Option String
  recentDecisions : List String
deriving DecidableEq, Repr

namespace QmdContext

/-- The all-empty `QmdContextResult` returned by `extractCombinedContext`
when the primary tier yields nothing usable. -/
def emptyResult : QmdContextResult :=
  { recentTasks := [], openThreads := [], lastTopic := none, recentDecisions := [] }

/-- `extractCombinedContext` from `qmd-context.ts`. `qmdOutcome` is the
resolution of the inner `extractQmdContext` call: `.error ()` if it
rejected (caught by the `try`), `.ok q` with the four per-intent query
results otherwise. The primary result is kept only when it has at least
one recent task or open thread; in every other case the function returns
the empty result so the caller can fall back. -/
def extractCombinedContext (qmdOutcome : Except Unit QmdContextResult) : QmdContextResult :=
  match qmdOutcome with
  | .ok qmdContext =>
    if qmdContext.recentTasks.length > 0 ∨ qmdContext.openThreads.length > 0 then qmdContext
    else emptyResult
  | .error _ => emptyResult

end QmdContext

/-- The `RecentContext` record of the plugin module (part_005).
`lastInteraction` is kept in epoch milliseconds. -/
structure RecentContext where
  lastTasks : List String
  openThreads : List String
  recentDecisions : List String
  lastInteraction : Option Int
deriving DecidableEq, Repr

/-- The `Gap` record of the plugin module. -/
structure Gap where
  category : String
  description : String
  suggestedQuestion : String
deriving DecidableEq, Repr

/-- The `TimeOfDay` type of the plugin module (`sleep` instead of the idle
service's `night`). -/
inductive TimeOfDay where
  | morning | afternoon | evening | sleep
deriving DecidableEq, Repr

namespace Part5

/-- `parseTimeToHour` from the plugin module: a number is taken as the hour
directly; a string is split on `":"` and only the first component is read,
so `"22:30"` parses to `22` — the minutes are discarded. -/
def parseTimeToHour : TimeBound → Option Int
  | .num n => some n
  | .str s =>
    match jsSplitOnColon s with
    | [] => none
    | h :: _ => jsToNumber h

/-- The sleep test nested in `getTimeOfDay` of the plugin module, over the
already-parsed hour bounds: whole-hour comparison, wraparound when
`startHour > endHour`. -/
def sleepCheckHours (startHour endHour : Option Int) (hour : Int) : Bool :=
  if jsLe startHour endHour then
    jsGe (some hour) startHour && jsLt (some hour) endHour
  else
    jsGe (some hour) startHour || jsLt (some hour) endHour

/-- The body of `getTimeOfDay` from the plugin module, over the
already-parsed hour bounds: the whole-hour sleep check, then fixed buckets
8-12 / 12-18 / else. -/
def getTimeOfDayHours (startHour endHour : Option Int) (hour : Int) : TimeOfDay :=
  if sleepCheckHours startHour endHour hour = true then .sleep
  else if 8 ≤ hour ∧ hour < 12 then .morning
  else if 12 ≤ hour ∧ hour < 18 then .afternoon
  else .evening

/-- `getTimeOfDay` from the plugin module. `hour` is
`new Date().getHours()`. -/
def getTimeOfDay (sleepStart sleepEnd : TimeBound) (hour : Int) : TimeOfDay :=
  getTimeOfDayHours (parseTimeToHour sleepStart) (parseTimeToHour sleepEnd) hour

/-- `isInSleepHours` from the plugin module:
`getTimeOfDay(sleepStart, sleepEnd) === "sleep"`. -/
def isInSleepHours (sleepStart sleepEnd : TimeBound) (hour : Int) : Bool :=
  decide (getTimeOfDay sleepStart sleepEnd hour = TimeOfDay.sleep)

/-- The raw plugin configuration object handed to `configSchema.parse`:
every recognized-looking key may be present or absent. The
`minGapBetweenCheckInsMs` key is included here because a user may set it;
whether `parse` reads it is exactly what claim C4 is about. -/
structure RawConfig where
  enabled : Option Bool := none
  autoInject : Option Bool := none
  gapDetection : Option Bool := none
  checkIns : Option Bool := none
  proactiveCheckIns : Option Bool := none
  useQmd : Option Bool := none
  sleepStart : Option TimeBound := none
  sleepEnd : Option TimeBound := none
  checkIntervalMs : Option Int := none
  learningIdleThresholdMs : Option Int := none
  matureIdleThresholdMs : Option Int := none
  minGapBetweenCheckInsMs : Option Int := none
deriving DecidableEq, Repr

/-- The parsed configuration produced by `configSchema.parse` in the plugin
module. It has no minimum-gap field. -/
structure SigConfig where
  enabled : Bool
  autoInject : Bool
  gapDetection : Bool
  checkIns : Bool
  proactiveCheckIns : Bool
  useQmd : Bool
  sleepStart : TimeBound
  sleepEnd : TimeBound
  checkIntervalMs : Int
  learningIdleThresholdMs : Int
  matureIdleThresholdMs : Int
deriving DecidableEq, Repr

/-- Models `Number(x) || d` on an optional integer: an absent value
(`Number(undefined) = NaN`, falsy) and `0` (falsy) both yield the
default. -/
def numberOr (o : Option Int) (d : Int) : Int :=
  match o with
  | none => d
  | some v => if v = 0 then d else v

/-- `configSchema.parse` from the plugin module. Booleans use the
`cfg.x !== false` idiom; sleep bounds default to `"00:00"`-`"08:00"`;
the three durations use `Number(...) || default`. Note that
`minGapBetweenCheckInsMs` is not read. -/
def configSchemaParse (cfg : RawConfig) : SigConfig :=
  { enabled := cfg.enabled ≠ some false
    autoInject := cfg.autoInject ≠ some false
    gapDetection := cfg.gapDetection ≠ some false
    checkIns := cfg.checkIns ≠ some false
    proactiveCheckIns := cfg.proactiveCheckIns ≠ some false
    useQmd := cfg.useQmd ≠ some false
    sleepStart := cfg.sleepStart.getD (.str "00:00")
    sleepEnd := cfg.sleepEnd.getD (.str "08:00")
    checkIntervalMs := numberOr cfg.checkIntervalMs 1800000
    learningIdleThresholdMs := numberOr cfg.learningIdleThresholdMs 7200000
    matureIdleThresholdMs := numberOr cfg.matureIdleThresholdMs 14400000 }

/-- `getRecentContext` from the plugin module. `useQmd` and `hasConfig`
model the `cfg?.useQmd && cfg?.config` guard; `qmdOutcome` is the
resolution of the inner `extractQmdContext` call threaded through
`extractCombinedContext`; `fallbackCtx` is whatever the file-based
fallback block (memory files + `.significance/tasks.json`) produces when
it runs. Returns the context together with a flag that is `true` exactly
when the file-based fallback ran. The QMD result is kept only when it has
recent tasks or open threads; its `lastTopic` is never copied
(`RecentContext` has no such field) and `lastInteraction` stays `null` on
the QMD path. -/
def getRecentContext (useQmd hasConfig : Bool) (qmdOutcome : Except Unit QmdContextResult)
    (fallbackCtx : RecentContext) : RecentContext × Bool :=
  if useQmd ∧ hasConfig then
    let qmdContext := QmdContext.extractCombinedContext qmdOutcome
    if qmdContext.recentTasks.length > 0 ∨ qmdContext.openThreads.length > 0 then
      ({ lastTasks := qmdContext.recentTasks
         openThreads := qmdContext.openThreads
         recentDecisions := qmdContext.recentDecisions
         lastInteraction := none }, false)
    else (fallbackCtx, true)
  else (fallbackCtx, true)

/-- Renders a `TimeOfDay` the way the template string interpolates it. -/
def timeOfDayString : TimeOfDay → String
  | .morning => "morning"
  | .afternoon => "afternoon"
  | .evening => "evening"
  | .sleep => "sleep"

/-- `generateCheckInPrompt` from the plugin module: `null` during sleep
hours, otherwise the check-in template with tone guidance, up to three
context bullet lines and a prioritized focus line. `hoursSince > 24` is
expressed exactly as `nowMs - t > 86400000`. Apostrophes are elided from
the prose literals. -/
def generateCheckInPrompt (timeOfDay : TimeOfDay) (context : RecentContext)
    (gaps : List Gap) (nowMs : Int) : Option String :=
  if timeOfDay = TimeOfDay.sleep then none
  else
    let parts : List String :=
      (if context.lastTasks.length > 0 then
        ["Recent tasks: " ++ String.intercalate ", " (context.lastTasks.take 3)]
       else [])
      ++ (if context.openThreads.length > 0 then
        ["Open threads: " ++ String.intercalate ", " (context.openThreads.take 2)]
       else [])
      ++ (if context.recentDecisions.length > 0 then
        ["Recent decisions: " ++ context.recentDecisions.headD ""]
       else [])
    let over24 : Bool :=
      match context.lastInteraction with
      | some t => decide (nowMs - t > 86400000)
      | none => false
    let toneGuidance : String :=
      match timeOfDay with
      | .morning => "energized, forward-looking - good time to revisit yesterdays threads or plan today"
      | .afternoon => "collaborative, problem-solving - check on progress, offer fresh perspective"
      | .evening => "reflective, consolidating - capture learnings, note threads for tomorrow"
      | .sleep => ""
    let checkInFocus : String :=
      if over24 && context.openThreads.length > 0 then
        "Its been a while. Pick up an open thread: \"" ++ context.openThreads.headD "" ++ "\""
      else if context.lastTasks.length > 0 then
        "Continue from last task: \"" ++ context.lastTasks.headD "" ++ "\""
      else if gaps.length > 0 then
        "Fill a gap: \"" ++ (gaps.headD { category := "", description := "", suggestedQuestion := "" }).suggestedQuestion ++ "\""
      else "Open-ended - see what they are working on"
    some ("<check-in-context>\nTime: " ++ timeOfDayString timeOfDay
      ++ "\nTone: " ++ toneGuidance
      ++ (if parts.length > 0 then
            "\nContext:\n" ++ String.intercalate "\n" (parts.map (fun p => "- " ++ p))
          else "")
      ++ "\n\nFocus: " ++ checkInFocus
      ++ "\n\nGenerate a natural, contextual check-in based on the above. Do not use canned phrases.\nIf there is recent task context, reference it specifically. Be a partner, not a greeter.\n</check-in-context>")

/-- The task-ledger JSON object (`.significance/tasks.json`). `extra`
models any other keys the object may carry: the `...existing` spread in
`recordTaskContext` preserves them. -/
structure Ledger where
  recent : List String
  openThreads : List String
  lastInteraction : Option String
  extra : List (String × String)
deriving DecidableEq, Repr

/-- Models JS `s.trim()`: strips leading and trailing whitespace. -/
def jsTrim (s : String) : String :=
  String.mk ((((s.data.dropWhile Char.isWhitespace).reverse).dropWhile Char.isWhitespace).reverse)

/-- Insertion-order deduplication with a `seen` accumulator: the semantics
of JS `[...new Set(list)]` (first occurrence kept, order preserved). -/
def dedupeAux (seen : List String) : List String → List String
  | [] => []
  | a :: rest =>
    if a ∈ seen then dedupeAux seen rest
    else a :: dedupeAux (a :: seen) rest

/-- JS `[...new Set(list)]`. -/
def jsSetDedupe (l : List String) : List String :=
  dedupeAux [] l

/-- The shared body of `extractTasks` and `extractThreads` from the plugin
module, over the group-1 capture strings produced by `matchAll` across the
pattern list (in pattern-then-match order): keep captures of raw length
strictly between 3 and 100, trim each, deduplicate via `Set`, keep the
first 5. -/
def extractSnippets (captures : List String) : List String :=
  let kept := (captures.filter (fun c => 3 < c.length ∧ c.length < 100)).map jsTrim
  (jsSetDedupe kept).take 5

/-- `extractTasks` from the plugin module; `taskCaptures` are the group-1
matches of the three `TASK_PATTERNS` regexes over the conversation text. -/
def extractTasks (taskCaptures : List String) : List String :=
  extractSnippets taskCaptures

/-- `extractThreads` from the plugin module; `threadCaptures` are the
group-1 matches of the three `THREAD_PATTERNS` regexes. -/
def extractThreads (threadCaptures : List String) : List String :=
  extractSnippets threadCaptures

/-- `recordTaskContext` from the plugin module. `prev` is the parse of the
existing ledger file (`none` when missing or unparsable, in which case the
spread source is `{}`): the result spreads the existing object and then
overwrites `recent` (capped at 5), `openThreads` (capped at 5) and
`lastInteraction` (fresh ISO timestamp); any other keys of the previous
ledger survive. -/
def recordTaskContext (prev : Option Ledger) (tasks threads : List String)
    (nowIso : String) : Ledger :=
  { recent := tasks.take 5
    openThreads := threads.take 5
    lastInteraction := some nowIso
    extra := (prev.map Ledger.extra).getD [] }

/-- The task-recording step of the `agent_end` handler in the plugin
module: `recordTaskContext` is called only when
`tasks.length > 0 || threads.length > 0`; otherwise the ledger file is not
touched. -/
def agentEndTaskStep (prev : Option Ledger) (taskCaptures threadCaptures : List String)
    (nowIso : String) : Option Ledger :=
  let tasks := extractTasks taskCaptures
  let threads := extractThreads threadCaptures
  if tasks.length > 0 ∨ threads.length > 0 then
    some (recordTaskContext prev tasks threads nowIso)
  else prev

/-- The threshold selection of the scheduler tick in the plugin module:
`inLearning ? cfg.learningIdleThresholdMs : cfg.matureIdleThresholdMs`. -/
def tickThreshold (cfg : SigConfig) (nowMs : Int) (state : IdleState) : Int :=
  if IdleService.isInLearningMode nowMs state then cfg.learningIdleThresholdMs
  else cfg.matureIdleThresholdMs

/-- The gate invocation of the scheduler tick: `shouldSendCheckIn` is
called with the learning-aware threshold and the configured sleep bounds,
and with no `minTimeBetweenCheckInsMs` argument (the parameter is omitted,
so its one-hour default applies). -/
def tickGate (cfg : SigConfig) (nowMs currentMinutes : Int) (state : IdleState) : Bool :=
  IdleService.shouldSendCheckIn nowMs currentMinutes state (tickThreshold cfg nowMs state)
    cfg.sleepStart cfg.sleepEnd none

/-- The tick maps the idle service's `"night"` to the plugin module's
`"sleep"` before calling `generateCheckInPrompt`. -/
def idleToTimeOfDay : IdleService.IdleTimeOfDay → TimeOfDay
  | .morning => .morning
  | .afternoon => .afternoon
  | .evening => .evening
  | .night => .sleep

/-- The environment of one scheduler tick: the wall clock (`nowMs`,
`currentMinutes`, `hour` — all read from the same instant), the idle-state
file contents, the configuration, and the resolution of each awaited
effectful step. `enqueueOutcome` is the fate of `enqueueSystemEvent`
inside `triggerProactiveCheckIn`; that helper catches its own errors, so
this outcome never aborts the tick. -/
structure TickEnv where
  moduleInitMs : Int
  nowMs : Int
  currentMinutes : Int
  hour : Int
  file : Except Unit ParsedIdle
  cfg : SigConfig
  contextOutcome : Except Unit RecentContext
  gapsOutcome : Except Unit (List Gap)
  enqueueOutcome : Except Unit Unit
  saveOutcome : Except Unit Unit

/-- The observable outcome of one tick: the durable state written by
`saveIdleState` (`none` when the file is left unchanged), the number of
`triggerProactiveCheckIn` calls, and whether an exception escaped the
timer callback. -/
structure TickResult where
  persisted : Option IdleState
  dispatchCount : Nat
  escaped : Bool
deriving DecidableEq, Repr

/-- The state loaded at the top of the tick (`loadIdleState` never
throws). -/
def tickState (env : TickEnv) : IdleState :=
  IdleService.loadIdleState env.moduleInitMs env.file env.nowMs

/-- The prompt computed by the tick: `getIdleTimeOfDay` mapped
`night → sleep`, then `generateCheckInPrompt`. -/
def tickPrompt (env : TickEnv) (context : RecentContext) (gaps : List Gap) : Option String :=
  generateCheckInPrompt
    (idleToTimeOfDay (IdleService.getTimeOfDay env.cfg.sleepStart env.cfg.sleepEnd env.hour env.currentMinutes))
    context gaps env.nowMs

/-- The `setInterval` callback of the significance background service
(plugin module): load state, evaluate the gate, and when it passes pull
context and gaps, generate the prompt, trigger the check-in
(`triggerProactiveCheckIn` swallows delivery errors internally), then set
`lastCheckInMs := Date.now()`, increment `checkInCount` and persist. The
whole body sits in a `try`/`catch`, so a rejection of any awaited step
(context, gaps, save) ends the tick early with no durable write and no
escaping exception. -/
def tickRun (env : TickEnv) : TickResult :=
  if tickGate env.cfg env.nowMs env.currentMinutes (tickState env) = false then
    { persisted := none, dispatchCount := 0, escaped := false }
  else
    match env.contextOutcome, env.gapsOutcome with
    | .error _, _ => { persisted := none, dispatchCount := 0, escaped := false }
    | .ok _, .error _ => { persisted := none, dispatchCount := 0, escaped := false }
    | .ok recentContext, .ok gaps =>
      match tickPrompt env recentContext gaps with
      | none => { persisted := none, dispatchCount := 0, escaped := false }
      | some _ =>
        match env.saveOutcome with
        | .error _ => { persisted := none, dispatchCount := 1, escaped := false }
        | .ok _ =>
          { persisted := some { tickState env with
              lastCheckInMs := env.nowMs
              checkInCount := (tickState env).checkInCount + 1 }
            dispatchCount := 1
            escaped := false }

/-- A concrete tick environment: default configuration, 10:00 local time
(outside the default 00:00-08:00 sleep window), a mature relationship
(relationship start 20 days ago), last interaction 20000000 ms ago (past
the 4 h mature threshold), never checked in, context and gap extraction
succeed, the idle-state write succeeds, but `enqueueSystemEvent` inside
`triggerProactiveCheckIn` rejects. -/
def exTickEnv : TickEnv :=
  { moduleInitMs := 1700000000000
    nowMs := 1700000000000
    currentMinutes := 600
    hour := 10
    file := .ok { lastInteractionMs := some 1699980000000, lastCheckInMs := some 0,
                  relationshipStartMs := some 1698272000000, checkInCount := some 2 }
    cfg := configSchemaParse {}
    contextOutcome := .ok { lastTasks := [], openThreads := [], recentDecisions := [],
                            lastInteraction := none }
    gapsOutcome := .ok []
    enqueueOutcome := .error ()
    saveOutcome := .ok () }

/-- The durable state `exTickEnv`'s tick writes. -/
def exTickPersisted : IdleState :=
  { lastInteractionMs := 1699980000000
    lastCheckInMs := 1700000000000
    relationshipStartMs := 1698272000000
    checkInCount := 3 }

/-- A concrete previous task ledger carrying an unknown extra key. -/
def exLedger : Ledger :=
  { recent := ["old task"]
    openThreads := []
    lastInteraction := some "2026-01-01T00:00:00Z"
    extra := [("note", "keep")] }

end Part5

/-! Helper lemmas. -/

theorem jsLt_some (a b : Int) : jsLt (some a) (some b) = decide (a < b) := rfl

theorem jsLe_some (a b : Int) : jsLe (some a) (some b) = decide (a ≤ b) := rfl

theorem jsGt_some (a b : Int) : jsGt (some a) (some b) = decide (a > b) := rfl

theorem jsGe_some (a b : Int) : jsGe (some a) (some b) = decide (a ≥ b) := rfl

theorem length_dropWhile_le (p : Char → Bool) (l : List Char) :
    (l.dropWhile p).length ≤ l.length := by
  induction l with
  | nil => simp
  | cons a t ih =>
    by_cases h : p a
    · simpa [List.dropWhile, h] using Nat.le_succ_of_le ih
    · simp [List.dropWhile, h]

theorem jsTrim_length_le (s : String) : (Part5.jsTrim s).length ≤ s.length := by
  show ((((s.data.dropWhile Char.isWhitespace).reverse).dropWhile Char.isWhitespace).reverse).length
      ≤ s.data.length
  rw [List.length_reverse]
  calc (((s.data.dropWhile Char.isWhitespace).reverse).dropWhile Char.isWhitespace).length
      ≤ (s.data.dropWhile Char.isWhitespace).reverse.length := length_dropWhile_le _ _
    _ = (s.data.dropWhile Char.isWhitespace).length := List.length_reverse _
    _ ≤ s.data.length := length_dropWhile_le _ _

theorem mem_of_mem_dedupeAux {x : String} :
    ∀ (l seen : List String), x ∈ Part5.dedupeAux seen l → x ∈ l := by
  intro l
  induction l with
  | nil => intro seen h; simp [Part5.dedupeAux] at h
  | cons a rest ih =>
    intro seen h
    by_cases ha : a ∈ seen
    · simp only [Part5.dedupeAux, if_pos ha] at h
      exact List.mem_cons_of_mem _ (ih _ h)
    · simp only [Part5.dedupeAux, if_neg ha, List.mem_cons] at h
      rcases h with h | h
      · exact h ▸ List.mem_cons_self _ _
      · exact List.mem_cons_of_mem _ (ih _ h)

theorem not_mem_dedupeAux_of_mem_seen {y : String} :
    ∀ (l seen : List String), y ∈ seen → y ∉ Part5.dedupeAux seen l := by
  intro l
  induction l with
  | nil => intro seen _; simp [Part5.dedupeAux]
  | cons a rest ih =>
    intro seen hy
    by_cases ha : a ∈ seen
    · simpa [Part5.dedupeAux, if_pos ha] using ih seen hy
    · simp only [Part5.dedupeAux, if_neg ha, List.mem_cons, not_or]
      refine ⟨?_, ih (a :: seen) (List.mem_cons_of_mem _ hy)⟩
      rintro rfl
      exact ha hy

theorem nodup_dedupeAux : ∀ (l seen : List String), (Part5.dedupeAux seen l).Nodup := by
  intro l
  induction l with
  | nil => intro seen; simp [Part5.dedupeAux]
  | cons a rest ih =>
    intro seen
    by_cases ha : a ∈ seen
    · simpa [Part5.dedupeAux, if_pos ha] using ih seen
    · simp only [Part5.dedupeAux, if_neg ha]
      exact List.nodup_cons.2
        ⟨not_mem_dedupeAux_of_mem_seen rest (a :: seen) (List.mem_cons_self a seen),
         ih (a :: seen)⟩

theorem extractSnippets_mem_le {s : String} {captures : List String}
    (hs : s ∈ Part5.extractSnippets captures) : s.length ≤ 99 := by
  have h1 : s ∈ Part5.jsSetDedupe
      ((captures.filter (fun c => 3 < c.length ∧ c.length < 100)).map Part5.jsTrim) :=
    List.mem_of_mem_take hs
  have h2 : s ∈ (captures.filter (fun c => 3 < c.length ∧ c.length < 100)).map Part5.jsTrim :=
    mem_of_mem_dedupeAux _ _ h1
  rcases List.mem_map.1 h2 with ⟨c, hc, rfl⟩
  have hlen : c.length < 100 := by
    have := (List.mem_filter.1 hc).2
    simp only [decide_eq_true_eq] at this
    exact this.2
  have := jsTrim_length_le c
  omega

/-! Claim theorems. -/

/-- C10: for every input text (represented by the group-1 capture lists the
`TASK_PATTERNS` / `THREAD_PATTERNS` regexes produce over it), `extractTasks`
and `extractThreads` each return a duplicate-free list of at most 5
snippets, every snippet at most 99 characters long. -/
theorem extractTasks_extractThreads_bounded (taskCaptures threadCaptures : List String) :
    ((Part5.extractTasks taskCaptures).Nodup
      ∧ (Part5.extractTasks taskCaptures).length ≤ 5
      ∧ ∀ s ∈ Part5.extractTasks taskCaptures, s.length ≤ 99)
  ∧ ((Part5.extractThreads threadCaptures).Nodup
      ∧ (Part5.extractThreads threadCaptures).length ≤ 5
      ∧ ∀ s ∈ Part5.extractThreads threadCaptures, s.length ≤ 99) := by
  refine ⟨⟨?_, ?_, ?_⟩, ⟨?_, ?_, ?_⟩⟩
  · exact (nodup_dedupeAux _ []).sublist (List.take_sublist _ _)
  · exact List.length_take_le _ _
  · exact fun s hs => extractSnippets_mem_le hs
  · exact (nodup_dedupeAux _ []).sublist (List.take_sublist _ _)
  · exact List.length_take_le _ _
  · exact fun s hs => extractSnippets_mem_le hs

/-- Witness for C10 at a concrete capture list: the snippet kept for
`"fix the login flow"` is at most 99 characters. -/
theorem extractTasks_extractThreads_bounded_witness :
    ("fix the login flow" : String).length ≤ 99 :=
  (extractTasks_extractThreads_bounded ["fix the login flow"] []).1.2.2
    "fix the login flow" (by decide)

/-- C9: saving an `IdleState` and loading it back (same store location)
returns an equal record: every field is serialized, so none of the `??`
defaults in `loadIdleState` fires. -/
theorem saveIdleState_loadIdleState_roundtrip (moduleInitMs nowMs : Int) (state : IdleState) :
    IdleService.loadIdleState moduleInitMs (.ok (IdleService.saveIdleState state)) nowMs
      = state := rfl

/-- C7 counterexample: on a missing or unreadable state file,
`loadIdleState` returns the module-level `DEFAULT_STATE`, whose
`lastCheckInMs` is `0` (not the current time) and whose other two
timestamps are the module-initialization instant (here `100`), not the
load-call instant (here `200`). The claim predicts all three timestamps
equal the load-time `now`. -/
theorem loadIdleState_defaults_counterexample :
    IdleService.loadIdleState 100 (.error ()) 200 ≠
      { lastInteractionMs := 200, lastCheckInMs := 200,
        relationshipStartMs := 200, checkInCount := 0 } := by decide

/-- C7 amended: `loadIdleState` never throws on a missing or unreadable
file (it is total and the `catch` branch is this case) and returns the
default record: `checkInCount = 0`, `lastCheckInMs = 0`, and the
module-initialization time for `lastInteractionMs` and
`relationshipStartMs`. -/
theorem loadIdleState_missing_file (moduleInitMs nowMs : Int) :
    IdleService.loadIdleState moduleInitMs (.error ()) nowMs =
      { lastInteractionMs := moduleInitMs, lastCheckInMs := 0,
        relationshipStartMs := moduleInitMs, checkInCount := 0 } := rfl

/-- C5: `isInLearningMode` holds iff `now - relationshipStartMs` is
strictly below 14 days (1209600000 ms), and the scheduler tick selects the
learning threshold exactly when learning mode holds, the mature threshold
otherwise; instantiated at the spec's two examples (20 days old - mature,
1 day old - learning). -/
theorem learning_mode_threshold_selection (nowMs : Int) (state : IdleState)
    (cfg : Part5.SigConfig) :
    (IdleService.isInLearningMode nowMs state = true ↔
        nowMs - state.relationshipStartMs < 1209600000)
  ∧ Part5.tickThreshold cfg nowMs state =
      (if IdleService.isInLearningMode nowMs state then cfg.learningIdleThresholdMs
       else cfg.matureIdleThresholdMs)
  ∧ IdleService.isInLearningMode nowMs
      { state with relationshipStartMs := nowMs - 1728000000 } = false
  ∧ Part5.tickThreshold cfg nowMs
      { state with relationshipStartMs := nowMs - 1728000000 } = cfg.matureIdleThresholdMs
  ∧ IdleService.isInLearningMode nowMs
      { state with relationshipStartMs := nowMs - 86400000 } = true
  ∧ Part5.tickThreshold cfg nowMs
      { state with relationshipStartMs := nowMs - 86400000 } = cfg.learningIdleThresholdMs := by
  have h20 : IdleService.isInLearningMode nowMs
      { state with relationshipStartMs := nowMs - 1728000000 } = false := by
    simp only [IdleService.isInLearningMode, decide_eq_false_iff_not, not_lt]
    omega
  have h1 : IdleService.isInLearningMode nowMs
      { state with relationshipStartMs := nowMs - 86400000 } = true := by
    simp only [IdleService.isInLearningMode, decide_eq_true_eq]
    omega
  refine ⟨?_, rfl, h20, ?_, h1, ?_⟩
  · simp only [IdleService.isInLearningMode, decide_eq_true_eq]
    omega
  · simp [Part5.tickThreshold, h20]
  · simp [Part5.tickThreshold, h1]

/-- C2: the check-in gate is false in the sleep window regardless of idle
duration; otherwise false when the time since the last check-in is below
the minimum gap (the optional parameter, defaulting to one hour);
otherwise true iff the idle time reaches the threshold. A never-checked-in
state (`lastCheckInMs = 0`) is not blocked by the gap rule: its elapsed
gap is the full epoch time `now`, so the rule passes whenever the gap does
not exceed `now` (epoch milliseconds dwarf any realistic gap). -/
theorem shouldSendCheckIn_spec (nowMs currentMinutes : Int) (state : IdleState)
    (idleThresholdMs : Int) (sleepStart sleepEnd : TimeBound) (minGapOpt : Option Int) :
    (IdleService.isInSleepHours sleepStart sleepEnd currentMinutes = true →
        IdleService.shouldSendCheckIn nowMs currentMinutes state idleThresholdMs
          sleepStart sleepEnd minGapOpt = false)
  ∧ (IdleService.isInSleepHours sleepStart sleepEnd currentMinutes = false →
      nowMs - state.lastCheckInMs < minGapOpt.getD 3600000 →
        IdleService.shouldSendCheckIn nowMs currentMinutes state idleThresholdMs
          sleepStart sleepEnd minGapOpt = false)
  ∧ (IdleService.isInSleepHours sleepStart sleepEnd currentMinutes = false →
      minGapOpt.getD 3600000 ≤ nowMs - state.lastCheckInMs →
        (IdleService.shouldSendCheckIn nowMs currentMinutes state idleThresholdMs
            sleepStart sleepEnd minGapOpt = true ↔
          idleThresholdMs ≤ nowMs - state.lastInteractionMs))
  ∧ (state.lastCheckInMs = 0 →
      minGapOpt.getD 3600000 ≤ nowMs →
      IdleService.isInSleepHours sleepStart sleepEnd currentMinutes = false →
        (IdleService.shouldSendCheckIn nowMs currentMinutes state idleThresholdMs
            sleepStart sleepEnd minGapOpt = true ↔
          idleThresholdMs ≤ nowMs - state.lastInteractionMs)) := by
  have hform : IdleService.shouldSendCheckIn nowMs currentMinutes state idleThresholdMs
      sleepStart sleepEnd minGapOpt =
      (if IdleService.isInSleepHours sleepStart sleepEnd currentMinutes then false
       else if nowMs - state.lastCheckInMs < minGapOpt.getD 3600000 then false
       else decide (idleThresholdMs ≤ nowMs - state.lastInteractionMs)) := rfl
  refine ⟨?_, ?_, ?_, ?_⟩
  · intro hSleep
    rw [hform, hSleep]
    simp
  · intro hSleep hGap
    rw [hform, hSleep]
    simp [hGap]
  · intro hSleep hGap
    rw [hform, hSleep]
    simp [not_lt.2 hGap]
  · intro hZero hNow hSleep
    rw [hform, hSleep, hZero]
    have hng : ¬ (nowMs - 0 < minGapOpt.getD 3600000) := by omega
    rw [if_neg (by simp), if_neg hng]
    simp

/-- Witness for C2: a mature-style state, 10:00 with the default sleep
window, never checked in, idle 20000000 ms against a 14400000 ms
threshold: the gate fires. -/
theorem shouldSendCheckIn_spec_witness :
    IdleService.shouldSendCheckIn 1700000000000 600
      { lastInteractionMs := 1699980000000, lastCheckInMs := 0,
        relationshipStartMs := 1698272000000, checkInCount := 0 }
      14400000 (.str "00:00") (.str "08:00") none = true :=
  ((shouldSendCheckIn_spec 1700000000000 600
      { lastInteractionMs := 1699980000000, lastCheckInMs := 0,
        relationshipStartMs := 1698272000000, checkInCount := 0 }
      14400000 (.str "00:00") (.str "08:00") none).2.2.2
    rfl (by decide) (by decide)).mpr (by decide)

/-- C3 counterexample: the plugin module's in-sleep-window predicate
(`isInSleepHours` via `getTimeOfDay`) truncates `HH:MM` bounds to whole
hours. With `sleepStart = "22:30"`, `sleepEnd = "07:00"`, at 22:00 (hour
22, i.e. minute 1320) it reports sleep, although with the bounds
normalized to minutes (1350 and 420, wrap case) minute 1320 satisfies
neither `t ≥ start` nor `t < end` — the claimed minute-precision iff fails
for this predicate. -/
theorem part5_sleep_minute_precision_counterexample :
    Part5.isInSleepHours (.str "22:30") (.str "07:00") 22 = true
  ∧ IdleService.parseTimeToMinutes (.str "22:30") = some 1350
  ∧ IdleService.parseTimeToMinutes (.str "07:00") = some 420
  ∧ ¬ (1350 ≤ (1320 : Int) ∨ (1320 : Int) < 420) := by decide

/-- C3 amended: the check-in gate's predicate (`isInSleepHours` of the
idle service), over bounds normalized to minutes-since-midnight, is true
iff `start ≤ t < end` when `start ≤ end` and iff `t ≥ start ∨ t < end`
when `start > end` — start-inclusive, end-exclusive on both sides of
midnight at minute precision; the plugin module's injection-hook predicate
applies the same inclusive/exclusive wrap logic but at hour precision,
over hour-truncated bounds. -/
theorem sleep_window_spec :
    (∀ (startMinutes endMinutes t : Int),
        IdleService.isInSleepHoursMinutes (some startMinutes) (some endMinutes) t = true ↔
          (if startMinutes ≤ endMinutes then startMinutes ≤ t ∧ t < endMinutes
           else startMinutes ≤ t ∨ t < endMinutes))
  ∧ (∀ (startHour endHour h : Int),
        Part5.getTimeOfDayHours (some startHour) (some endHour) h = TimeOfDay.sleep ↔
          (if startHour ≤ endHour then startHour ≤ h ∧ h < endHour
           else startHour ≤ h ∨ h < endHour)) := by
  constructor
  · intro s e t
    simp only [IdleService.isInSleepHoursMinutes, jsGt_some, jsGe_some, jsLt_some,
      decide_eq_true_eq]
    by_cases hse : s ≤ e
    · rw [if_neg (by simpa using not_lt.2 hse), if_pos hse]
      simp
    · rw [if_pos (by simpa using not_le.1 hse), if_neg hse]
      simp
  · intro sh eh h
    have hb : Part5.sleepCheckHours (some sh) (some eh) h = true ↔
        (if sh ≤ eh then sh ≤ h ∧ h < eh else sh ≤ h ∨ h < eh) := by
      simp only [Part5.sleepCheckHours, jsLe_some, jsGe_some, jsLt_some, decide_eq_true_eq]
      by_cases hse : sh ≤ eh
      · rw [if_pos (by simpa using hse), if_pos hse]
        simp
      · rw [if_neg (by simpa using hse), if_neg hse]
        simp
    cases hc : Part5.sleepCheckHours (some sh) (some eh) h with
    | true =>
      rw [Part5.getTimeOfDayHours, if_pos hc]
      simp [hb.mp hc]
    | false =>
      have hnw : ¬ (if sh ≤ eh then sh ≤ h ∧ h < eh else sh ≤ h ∨ h < eh) := by
        intro hw
        rw [hb.mpr hw] at hc
        exact Bool.noConfusion hc
      rw [Part5.getTimeOfDayHours, if_neg (by simp [hc])]
      exact iff_of_false (by split_ifs <;> simp) hnw

/-- C1 counterexample: the claim predicts the fallback runs iff the
primary tier was empty for every intent. But the code keeps the primary
result only when it has recent tasks or open threads: with a primary
result that is empty except for one decisions snippet, the file-based
fallback runs (and the decisions snippet is discarded), refuting the
claimed iff. -/
theorem fallback_tier_counterexample :
    ¬ ∀ (q : QmdContextResult) (fb : RecentContext),
        ((Part5.getRecentContext true true (.ok q) fb).2 = true ↔
          (q.recentTasks = [] ∧ q.openThreads = [] ∧ q.lastTopic = none
            ∧ q.recentDecisions = [])) := by
  intro hclaim
  have h := hclaim
    { recentTasks := [], openThreads := [], lastTopic := none,
      recentDecisions := ["decided to use postgres"] }
    { lastTasks := [], openThreads := [], recentDecisions := [], lastInteraction := none }
  revert h
  decide

/-- C1 amended: with QMD enabled, the file-based fallback runs iff the
primary tier returned no recent tasks and no open threads (a snippet for
the last-topic or decisions intent alone does not prevent it); when the
primary tier yields any task or thread snippet, the fallback never runs
and the primary tasks/threads/decisions are returned unchanged (no
blending; `lastTopic` is dropped and `lastInteraction` stays null); a
rejected primary call also falls back. -/
theorem fallback_tier_spec (q : QmdContextResult) (fb : RecentContext) :
    ((Part5.getRecentContext true true (.ok q) fb).2 = true ↔
        (q.recentTasks = [] ∧ q.openThreads = []))
  ∧ (q.recentTasks ≠ [] ∨ q.openThreads ≠ [] →
      Part5.getRecentContext true true (.ok q) fb =
        ({ lastTasks := q.recentTasks, openThreads := q.openThreads,
           recentDecisions := q.recentDecisions, lastInteraction := none }, false))
  ∧ (q.recentTasks = [] ∧ q.openThreads = [] →
      Part5.getRecentContext true true (.ok q) fb = (fb, true))
  ∧ Part5.getRecentContext true true (.error ()) fb = (fb, true) := by
  have hcomb : QmdContext.extractCombinedContext (.ok q) =
      (if q.recentTasks.length > 0 ∨ q.openThreads.length > 0 then q
       else QmdContext.emptyResult) := rfl
  by_cases hq : q.recentTasks.length > 0 ∨ q.openThreads.length > 0
  · have hne : q.recentTasks ≠ [] ∨ q.openThreads ≠ [] := by
      rcases hq with hq | hq
      · exact Or.inl (List.ne_nil_of_length_pos hq)
      · exact Or.inr (List.ne_nil_of_length_pos hq)
    have hrun : Part5.getRecentContext true true (.ok q) fb =
        ({ lastTasks := q.recentTasks, openThreads := q.openThreads,
           recentDecisions := q.recentDecisions, lastInteraction := none }, false) := by
      rw [Part5.getRecentContext]
      simp only [hcomb, if_pos hq]
      simp
    refine ⟨?_, fun _ => hrun, ?_, rfl⟩
    · rw [hrun]
      simp only [Bool.false_eq_true, false_iff]
      intro hboth
      rcases hne with hne | hne
      · exact hne hboth.1
      · exact hne hboth.2
    · intro hboth
      rcases hne with hne | hne
      · exact absurd hboth.1 hne
      · exact absurd hboth.2 hne
  · have hempty : q.recentTasks = [] ∧ q.openThreads = [] := by
      push_neg at hq
      exact ⟨List.length_eq_zero.1 (Nat.le_zero.1 hq.1),
        List.length_eq_zero.1 (Nat.le_zero.1 hq.2)⟩
    have hrun : Part5.getRecentContext true true (.ok q) fb = (fb, true) := by
      rw [Part5.getRecentContext]
      simp only [hcomb, if_neg hq]
      rw [if_pos (by simp)]
      rw [if_neg (by simp [QmdContext.emptyResult])]
    refine ⟨?_, ?_, fun _ => hrun, rfl⟩
    · rw [hrun]
      simp [hempty]
    · intro hne
      rcases hne with hne | hne
      · exact absurd hempty.1 hne
      · exact absurd hempty.2 hne

/-- Witness for C1 at a concrete primary result with one task snippet:
the primary context is returned unchanged and the fallback does not
run. -/
theorem fallback_tier_spec_witness :
    Part5.getRecentContext true true
      (.ok { recentTasks := ["ship the feature"], openThreads := [], lastTopic := none,
             recentDecisions := [] })
      { lastTasks := [], openThreads := [], recentDecisions := [], lastInteraction := none } =
      ({ lastTasks := ["ship the feature"], openThreads := [], recentDecisions := [],
         lastInteraction := none }, false) :=
  (fallback_tier_spec
      { recentTasks := ["ship the feature"], openThreads := [], lastTopic := none,
        recentDecisions := [] }
      { lastTasks := [], openThreads := [], recentDecisions := [], lastInteraction := none }).2.1
    (by decide)

/-- C4 counterexample: a configuration with `minGapBetweenCheckInsMs` set
to two hours, a mature idle state past its threshold, and a check-in sent
90 minutes ago. The claim predicts the gate is blocked (90 min < 2 h), but
the tick's gate fires: the option is not parsed and the gate always runs
with its one-hour default. -/
theorem minGap_config_counterexample :
    Part5.tickGate (Part5.configSchemaParse { minGapBetweenCheckInsMs := some 7200000 })
        1700000000000 600
        { lastInteractionMs := 1699980000000, lastCheckInMs := 1699994600000,
          relationshipStartMs := 1698272000000, checkInCount := 3 } = true
  ∧ IdleService.shouldSendCheckIn 1700000000000 600
        { lastInteractionMs := 1699980000000, lastCheckInMs := 1699994600000,
          relationshipStartMs := 1698272000000, checkInCount := 3 }
        14400000 (.str "00:00") (.str "08:00") (some 7200000) = false
  ∧ (1700000000000 : Int) - 1699994600000 < 7200000 := by decide

/-- C4 amended: `configSchema.parse` ignores `minGapBetweenCheckInsMs`
(two raw configurations differing only in that key parse identically), and
the scheduler tick invokes the gate with no minimum-gap argument, so the
gate's effective minimum gap is always the one-hour default 3600000 ms. -/
theorem minGap_always_default (raw : Part5.RawConfig) (g : Option Int)
    (nowMs currentMinutes : Int) (state : IdleState) :
    Part5.configSchemaParse { raw with minGapBetweenCheckInsMs := g } =
      Part5.configSchemaParse raw
  ∧ Part5.tickGate (Part5.configSchemaParse raw) nowMs currentMinutes state =
      IdleService.shouldSendCheckIn nowMs currentMinutes state
        (Part5.tickThreshold (Part5.configSchemaParse raw) nowMs state)
        (Part5.configSchemaParse raw).sleepStart (Part5.configSchemaParse raw).sleepEnd
        (some 3600000) :=
  ⟨rfl, rfl⟩

/-- C8 counterexample: the claim predicts every analysis pass fully
overwrites the ledger with the extracted content and a fresh timestamp,
nothing from the previous ledger surviving. But on a pass that extracts no
tasks and no threads the handler skips `recordTaskContext` entirely and
the old ledger (old task, old timestamp, extra key) survives whole. -/
theorem ledger_overwrite_counterexample :
    ¬ ∀ (prev : Option Part5.Ledger) (taskCaptures threadCaptures : List String)
        (nowIso : String),
        Part5.agentEndTaskStep prev taskCaptures threadCaptures nowIso =
          some { recent := Part5.extractTasks taskCaptures,
                 openThreads := Part5.extractThreads threadCaptures,
                 lastInteraction := some nowIso, extra := [] } := by
  intro hclaim
  have h := hclaim (some Part5.exLedger) [] [] "2026-02-03T00:00:00Z"
  revert h
  decide

/-- C8 amended: when extraction yields at least one task or thread, the
pass replaces the ledger's `recent`, `openThreads` (both deduplicated at
extraction and capped at 5) and `lastInteraction` (fresh timestamp), while
any other keys of the previous ledger survive via the object spread; when
extraction yields neither, the ledger file is not rewritten at all. -/
theorem ledger_pass_spec (prev : Option Part5.Ledger)
    (taskCaptures threadCaptures : List String) (nowIso : String) :
    (Part5.extractTasks taskCaptures ≠ [] ∨ Part5.extractThreads threadCaptures ≠ [] →
        Part5.agentEndTaskStep prev taskCaptures threadCaptures nowIso =
          some { recent := (Part5.extractTasks taskCaptures).take 5,
                 openThreads := (Part5.extractThreads threadCaptures).take 5,
                 lastInteraction := some nowIso,
                 extra := (prev.map Part5.Ledger.extra).getD [] })
  ∧ (Part5.extractTasks taskCaptures = [] ∧ Part5.extractThreads threadCaptures = [] →
        Part5.agentEndTaskStep prev taskCaptures threadCaptures nowIso = prev) := by
  constructor
  · intro hne
    have hcond : (Part5.extractTasks taskCaptures).length > 0
        ∨ (Part5.extractThreads threadCaptures).length > 0 := by
      rcases hne with hne | hne
      · exact Or.inl (List.length_pos.2 hne)
      · exact Or.inr (List.length_pos.2 hne)
    rw [Part5.agentEndTaskStep]
    simp only [if_pos hcond]
    rfl
  · intro hempty
    have hcond : ¬ ((Part5.extractTasks taskCaptures).length > 0
        ∨ (Part5.extractThreads threadCaptures).length > 0) := by
      simp [hempty.1, hempty.2]
    rw [Part5.agentEndTaskStep]
    simp only [if_neg hcond]

/-- Witness for C8 at a concrete pass extracting one task over a previous
ledger with an extra key: the three known fields are replaced, the extra
key survives. -/
theorem ledger_pass_spec_witness :
    Part5.agentEndTaskStep (some Part5.exLedger) ["fix the login flow"] []
        "2026-02-03T00:00:00Z" =
      some { recent := ["fix the login flow"], openThreads := [],
             lastInteraction := some "2026-02-03T00:00:00Z", extra := [("note", "keep")] } :=
  ((ledger_pass_spec (some Part5.exLedger) ["fix the login flow"] []
      "2026-02-03T00:00:00Z").1 (by decide)).trans (by decide)

/-- C6 counterexample: the claim predicts that an exception raised during
dispatch leaves the tick a no-op with no state persisted. In `exTickEnv`
the delivery enqueue rejects, but `triggerProactiveCheckIn` swallows that
error internally, so the tick still records the check-in and persists the
updated state. -/
theorem tick_dispatch_failure_counterexample :
    ¬ ∀ (env : Part5.TickEnv), env.enqueueOutcome = .error () →
        (Part5.tickRun env).persisted = none := by
  intro hclaim
  have h := hclaim Part5.exTickEnv rfl
  revert h
  decide

/-- C6 amended: no exception ever escapes the timer callback; an exception
that reaches the tick's `try`/`catch` (context extraction, gap detection,
or the idle-state save) makes the tick a no-op with no durable write and
no dispatch beyond what already happened; at most one check-in is
dispatched per tick; and whenever a state is persisted it is the loaded
state with `lastCheckInMs := now`, `checkInCount` incremented by exactly
one and the other fields unchanged, after exactly one dispatch and a
successful save. A failure inside the delivery trigger itself is swallowed
there and does not prevent the state update (see the counterexample). -/
theorem tick_spec (env : Part5.TickEnv) :
    (Part5.tickRun env).escaped = false
  ∧ (env.contextOutcome = .error () →
      Part5.tickRun env = { persisted := none, dispatchCount := 0, escaped := false })
  ∧ (env.gapsOutcome = .error () →
      (Part5.tickRun env).persisted = none ∧ (Part5.tickRun env).dispatchCount = 0)
  ∧ (env.saveOutcome = .error () → (Part5.tickRun env).persisted = none)
  ∧ (Part5.tickRun env).dispatchCount ≤ 1
  ∧ (∀ s, (Part5.tickRun env).persisted = some s →
      s.lastCheckInMs = env.nowMs
      ∧ s.checkInCount = (Part5.tickState env).checkInCount + 1
      ∧ s.lastInteractionMs = (Part5.tickState env).lastInteractionMs
      ∧ s.relationshipStartMs = (Part5.tickState env).relationshipStartMs
      ∧ (Part5.tickRun env).dispatchCount = 1
      ∧ env.saveOutcome = .ok ()) := by
  rw [Part5.tickRun]
  split
  · exact ⟨rfl, fun _ => rfl, fun _ => ⟨rfl, rfl⟩, fun _ => rfl, by norm_num,
      fun s hs => by simp at hs⟩
  · split
    · rename_i hctx
      exact ⟨rfl, fun _ => rfl, fun _ => ⟨rfl, rfl⟩, fun _ => rfl, by norm_num,
        fun s hs => by simp at hs⟩
    · rename_i hctx hgaps
      exact ⟨rfl, fun h => absurd h (by simp [hctx]), fun _ => ⟨rfl, rfl⟩, fun _ => rfl,
        by norm_num, fun s hs => by simp at hs⟩
    · rename_i hctx hgaps
      split
      · exact ⟨rfl, fun h => absurd h (by simp [hctx]),
          fun h => absurd h (by simp [hgaps]), fun _ => rfl, by norm_num,
          fun s hs => by simp at hs⟩
      · split
        · rename_i hsave
          exact ⟨rfl, fun h => absurd h (by simp [hctx]),
            fun h => absurd h (by simp [hgaps]), fun _ => rfl, by norm_num,
            fun s hs => by simp at hs⟩
        · rename_i hsave
          refine ⟨rfl, fun h => absurd h (by simp [hctx]),
            fun h => absurd h (by simp [hgaps]),
            fun h => absurd h (by simp [hsave]), by norm_num, fun s hs => ?_⟩
          have hs' := Option.some.inj hs
          subst hs'
          exact ⟨rfl, rfl, rfl, rfl, rfl, by rw [hsave]⟩

/-- Witness for C6 at `exTickEnv`: the persisted state carries
`lastCheckInMs = now` and a count incremented from 2 to 3 after exactly
one dispatch. -/
theorem tick_spec_witness :
    Part5.exTickPersisted.lastCheckInMs = Part5.exTickEnv.nowMs
    ∧ Part5.exTickPersisted.checkInCount = (Part5.tickState Part5.exTickEnv).checkInCount + 1
    ∧ (Part5.tickRun Part5.exTickEnv).dispatchCount = 1 := by
  have h := (tick_spec Part5.exTickEnv).2.2.2.2.2 Part5.exTickPersisted (by decide)
  exact ⟨h.1, h.2.1, h.2.2.2.2.1⟩

end Bernard
